import Mathlib

/-!
Verification development for the docforge-react paginated-export pipeline.

The definitions below are a shallow embedding of the pipeline logic found in
`src/components/ExportButtons.tsx` and `src/components/DocumentEditor.tsx`:

* the page-break-aware raster (PDF) export (`exportToPDF`),
* the structured (Word) export tree walk (`processNode` / `exportToWord`),
* the inspection pagination splitter (`splitHtmlByPageBreaks`),
* the placeholder registry (`addCustomPlaceholder`, `deletePlaceholder`,
  `initAllPlaceholders`),
* the PDF-import page assembly (`pdfImportParts`, `pdfImportCommit`),
* the image blob cache (`resolveBlob`).

JavaScript strings are modelled as Lean `String` (lists of characters);
browser side effects (DOM container insertion/removal, file download,
toasts) are modelled as explicit fields of result records.
-/

/-- JS `String.prototype.trim`, on a character list: drop leading and
trailing whitespace. -/
def trimChars (l : List Char) : List Char :=
  ((l.dropWhile Char.isWhitespace).reverse.dropWhile Char.isWhitespace).reverse

/-- JS `String.prototype.trim` on strings. -/
def jsTrim (s : String) : String := ⟨trimChars s.data⟩

/-- The rendered form of the page-break marker node
(`DocumentEditor.tsx` renderHTML, lines 182-190): an `hr` element with class
`page-break` and the `data-page-break="true"` attribute.  This exact string is
the split literal of `splitHtmlByPageBreaks` (line 232), and it is the form
matched inside editor markup by the raster-export regular expression
`<hr[^>]*data-page-break=['"]true['"][^>]*>` (ExportButtons line 27). -/
def pageBreakMarkerHtml : String :=
  "<hr class=\"page-break\" data-page-break=\"true\">"

/-- Marker characters, for list-level string processing. -/
def markerChars : List Char := pageBreakMarkerHtml.data

/-- Fuel-indexed splitter of a character list on the page-break marker,
with JS `String.prototype.split` semantics: scan left to right, cut at each
leftmost non-overlapping occurrence of the separator.  The fuel argument
makes the recursion structural (hence kernel-evaluable); the wrapper
`splitOnMarker` supplies sufficient fuel. -/
def splitFuel : Nat → List Char → List (List Char)
  | 0, _ => [[]]
  | _ + 1, [] => [[]]
  | fuel + 1, c :: cs =>
    if markerChars.isPrefixOf (c :: cs) then
      [] :: splitFuel fuel (cs.drop (markerChars.length - 1))
    else
      match splitFuel fuel cs with
      | [] => [[c]]
      | p :: ps => (c :: p) :: ps

/-- Fuel-indexed count of non-overlapping occurrences of the page-break
marker, scanning exactly like `splitFuel`. -/
def countFuel : Nat → List Char → Nat
  | 0, _ => 0
  | _ + 1, [] => 0
  | fuel + 1, c :: cs =>
    if markerChars.isPrefixOf (c :: cs) then
      countFuel fuel (cs.drop (markerChars.length - 1)) + 1
    else
      countFuel fuel cs

/-- Split a character list on the page-break marker (JS `split` semantics). -/
def splitOnMarker (l : List Char) : List (List Char) :=
  splitFuel (l.length + 1) l

/-- Number of page-break markers occurring in a character list. -/
def countMarkersChars (l : List Char) : Nat :=
  countFuel (l.length + 1) l

/-- Split editor markup at page-break markers.  Embeds both split sites of the
source: `html.split(/<hr[^>]*data-page-break=['"]true['"][^>]*>/i)` in
`exportToPDF` (ExportButtons line 27) and
`html.split('<hr class="page-break" data-page-break="true">')` in
`splitHtmlByPageBreaks` (DocumentEditor line 232); on editor markup, whose
page-break nodes render exactly as `pageBreakMarkerHtml`, both cut at
exactly the marker occurrences. -/
def splitMarkup (html : String) : List String :=
  (splitOnMarker html.data).map (fun l => ⟨l⟩)

/-- Number of page-break markers in a markup string. -/
def countMarkersStr (html : String) : Nat := countMarkersChars html.data

theorem splitFuel_length :
    ∀ (fuel : Nat) (l : List Char), l.length < fuel →
      (splitFuel fuel l).length = countFuel fuel l + 1 := by
  intro fuel
  induction fuel with
  | zero => intro l h; omega
  | succ fuel ih =>
    intro l h
    match l with
    | [] => simp [splitFuel, countFuel]
    | c :: cs =>
      simp only [List.length_cons] at h
      cases hp : markerChars.isPrefixOf (c :: cs) with
      | true =>
        have hdrop : (cs.drop (markerChars.length - 1)).length < fuel := by
          have := List.length_drop (markerChars.length - 1) cs
          omega
        simp [splitFuel, countFuel, hp, ih _ hdrop]
      | false =>
        have hcs : cs.length < fuel := by omega
        have hrec := ih cs hcs
        simp only [splitFuel, countFuel, hp, Bool.false_eq_true, if_false]
        match hsp : splitFuel fuel cs with
        | [] => rw [hsp] at hrec; simp at hrec
        | p :: ps =>
          rw [hsp] at hrec
          simp only [List.length_cons] at hrec ⊢
          omega

theorem splitMarkup_length (html : String) :
    (splitMarkup html).length = countMarkersStr html + 1 := by
  unfold splitMarkup countMarkersStr splitOnMarker countMarkersChars
  rw [List.length_map]
  exact splitFuel_length _ _ (Nat.lt_succ_self _)

/-- Result of a run of the raster (PDF) export (`exportToPDF`,
ExportButtons lines 14-59).  `savedFile` is `some pages` exactly when
`pdf.save('document.pdf')` ran, holding the page list (each page's rasterized
image, in order); `containerRemoved` records whether the offscreen scratch
`div` appended to `document.body` was removed again
(`document.body.removeChild(container)`, line 52); `errorToast` records
whether the failure toast of the `catch` block was issued. -/
structure ExportResult where
  savedFile : Option (List (Option String))
  containerRemoved : Bool
  errorToast : Bool
deriving DecidableEq

/-- jsPDF `addImage` on the current (last) page of the accumulating PDF. -/
def addImageToLastPage (pdf : List (Option String)) (img : String) :
    List (Option String) :=
  pdf.dropLast ++ [some img]

/-- The page loop of `exportToPDF` (ExportButtons lines 38-50): for each
fragment, rasterize it (`render`, modelling `html2canvas` on the scratch
container holding the fragment, which may throw), then `if (i > 0)
pdf.addPage()` and `pdf.addImage(...)`.  A rasterization error aborts the
loop, propagating the exception. -/
def exportPagesLoop (render : String → Except Unit String) :
    List String → Nat → List (Option String) →
      Except Unit (List (Option String))
  | [], _, pdf => Except.ok pdf
  | p :: ps, i, pdf =>
    match render p with
    | Except.error e => Except.error e
    | Except.ok img =>
      let pdf1 := if i > 0 then pdf ++ [none] else pdf
      exportPagesLoop render ps (i + 1) (addImageToLastPage pdf1 img)

/-- The raster (PDF) export, `exportToPDF` (ExportButtons lines 14-59).
The editor markup is split at page-break markers; a scratch container is
appended to the document body; each fragment is rasterized into one page of a
fresh jsPDF document (which starts with one page); on success the container
is removed and the file saved; if any rasterization throws, control jumps to
the `catch` block, which shows the failure toast — skipping both
`removeChild` and `save`. -/
def exportToPDF (render : String → Except Unit String) (html : String) :
    ExportResult :=
  let parts := splitMarkup html
  match exportPagesLoop render parts 0 [none] with
  | Except.ok pdf => ⟨some pdf, true, false⟩
  | Except.error _ => ⟨none, false, true⟩

theorem dropLast_append_single {α : Type} (l : List α) (a : α) :
    (l ++ [a]).dropLast = l := by
  induction l with
  | nil => rfl
  | cons b bs ih =>
    cases bs with
    | nil => rfl
    | cons c cs => simp [List.dropLast, ih]

theorem exportLoop_ok_all (f : String → String) :
    ∀ (ps : List String) (i : Nat) (pdf : List (Option String)), 1 ≤ i →
      exportPagesLoop (fun s => Except.ok (f s)) ps i pdf
        = Except.ok (pdf ++ ps.map (fun p => some (f p))) := by
  intro ps
  induction ps with
  | nil => intro i pdf _; simp [exportPagesLoop]
  | cons p ps ih =>
    intro i pdf hi
    have hpos : i > 0 := hi
    simp only [exportPagesLoop, hpos, if_pos, addImageToLastPage,
      dropLast_append_single]
    rw [ih (i + 1) _ (by omega)]
    simp

theorem exportLoop_ok_start (f : String → String) (p : String)
    (ps : List String) :
    exportPagesLoop (fun s => Except.ok (f s)) (p :: ps) 0 [none]
      = Except.ok ((p :: ps).map (fun q => some (f q))) := by
  have h0 : ¬ ((0 : Nat) > 0) := by omega
  simp only [exportPagesLoop, h0, if_false, addImageToLastPage]
  rw [exportLoop_ok_all f ps 1 _ (by omega)]
  rfl

/-- C1: for every editor markup string with exactly N page-break markers, the
raster (PDF) export splits it into exactly N+1 fragments, and every fragment
— empty ones included, untrimmed — is rasterized into exactly one output
page at its original position, so the saved document has exactly N+1 pages.
(`f` is the rasterization of one fragment, here assumed to succeed on every
fragment, as the claim speaks of a completed export.) -/
theorem C1_raster_export_pages (html : String) (f : String → String) :
    (splitMarkup html).length = countMarkersStr html + 1
    ∧ exportToPDF (fun s => Except.ok (f s)) html
        = ⟨some ((splitMarkup html).map (fun p => some (f p))), true, false⟩ := by
  refine ⟨splitMarkup_length html, ?_⟩
  have hlen := splitMarkup_length html
  have hloop : exportPagesLoop (fun s => Except.ok (f s)) (splitMarkup html) 0
      [none] = Except.ok ((splitMarkup html).map (fun q => some (f q))) := by
    match hparts : splitMarkup html with
    | [] => rw [hparts] at hlen; simp at hlen
    | p :: ps => exact exportLoop_ok_start f p ps
  simp only [exportToPDF]
  rw [hloop]

/-- A rasterizer that throws on every fragment, for concrete error-path
runs of the raster export. -/
def failingRender : String → Except Unit String := fun _ => Except.error ()

/-- C2 (counterexample): the claim asserts that when a page's rasterization
throws, the offscreen scratch container appended to the document body is
removed before the error path completes.  On a concrete run where
rasterization throws on the first page, the export does abort, but the
scratch container is NOT removed: the `catch` block of `exportToPDF`
(ExportButtons lines 55-58) never runs `document.body.removeChild(container)`
(line 52, inside the `try`, after the loop). -/
theorem C2_counterexample :
    exportPagesLoop failingRender (splitMarkup "x") 0 [none] = Except.error ()
    ∧ ¬ (exportToPDF failingRender "x").containerRemoved = true := by
  constructor
  · rfl
  · decide

/-- C2 (amended): whenever some page's rasterization throws, the whole
export aborts with the user-visible failure toast and no file is produced;
however the offscreen scratch container is NOT removed from the document
body on this error path (it is only removed on the success path). -/
theorem C2_raster_error_aborts (html : String)
    (render : String → Except Unit String) (e : Unit)
    (h : exportPagesLoop render (splitMarkup html) 0 [none] = Except.error e) :
    exportToPDF render html = ⟨none, false, true⟩ := by
  simp only [exportToPDF]
  rw [h]

/-- C2 (witness): the amended theorem at a concrete failing run. -/
theorem C2_raster_error_aborts_witness :
    exportToPDF failingRender "x" = ⟨none, false, true⟩ :=
  C2_raster_error_aborts "x" failingRender () (by rfl)

/-- The inspection splitter `splitHtmlByPageBreaks` page-object construction
(DocumentEditor lines 237-243): `parts.forEach((part, index) => ...)` — trim
each fragment, and record `pageObject[index] = cleanedPart` only when the
trimmed fragment is non-empty.  The JS object with numeric keys is modelled
as an association list in key order. -/
def buildGo : List String → Nat → List (Nat × String)
  | [], _ => []
  | p :: ps, i =>
    let cleaned := jsTrim p
    if cleaned ≠ "" then (i, cleaned) :: buildGo ps (i + 1)
    else buildGo ps (i + 1)

/-- The pagination splitter (inspection variant), `splitHtmlByPageBreaks`
(DocumentEditor lines 230-246): split the markup on the literal rendered
page-break marker, then build the index → fragment mapping. -/
def splitHtmlByPageBreaks (html : String) : List (Nat × String) :=
  buildGo (splitMarkup html) 0

theorem buildGo_eq_filterMap :
    ∀ (ps : List String) (i : Nat),
      buildGo ps i
        = (ps.enumFrom i).filterMap
            (fun pr => if jsTrim pr.2 = "" then none
                       else some (pr.1, jsTrim pr.2)) := by
  intro ps
  induction ps with
  | nil => intro i; rfl
  | cons p ps ih =>
    intro i
    by_cases hc : jsTrim p = ""
    · simp [buildGo, List.enumFrom, hc, ih]
    · simp [buildGo, List.enumFrom, hc, ih]

/-- An input whose middle fragment trims to empty: the index sequence of the
resulting page object skips index 1. -/
def gapHtml : String :=
  "a" ++ pageBreakMarkerHtml ++ "  " ++ pageBreakMarkerHtml ++ "b"

/-- C3: the pagination splitter (inspection variant) splits on the literal
rendered page-break marker, trims each fragment, assigns each kept fragment
its 0-based position in the split result, and drops every fragment that
trims to empty with its index skipped rather than reused; consequently every
recorded value is a non-empty trimmed string and the index sequence need not
be contiguous (witnessed by `gapHtml`, whose page object has keys 0 and 2
but not 1). -/
theorem C3_splitHtmlByPageBreaks_spec (html : String) :
    splitHtmlByPageBreaks html
      = ((splitMarkup html).enum).filterMap
          (fun pr => if jsTrim pr.2 = "" then none
                     else some (pr.1, jsTrim pr.2))
    ∧ splitHtmlByPageBreaks gapHtml = [(0, "a"), (2, "b")] := by
  constructor
  · exact buildGo_eq_filterMap (splitMarkup html) 0
  · decide


/-- A node of the DOM tree obtained by parsing the editor markup
(`DOMParser.parseFromString` in `exportToWord`, ExportButtons lines 66-67):
either a text node or an element with an (uppercase, as in the DOM) tag
name, its `data-page-break` attribute and its child nodes.  Comment and
other node kinds never occur in serialized editor markup. -/
inductive HNode where
  | text (s : String)
  | elem (tag : String) (dataPageBreak : Bool) (children : List HNode)

/-- One docx `TextRun` (ExportButtons lines 78, 95-99, 107, 119-124):
`TextRun(string)` leaves all flags unset; the option form carries
bold/italics/underline flags and an optional half-point font size. -/
structure TextRun where
  text : String
  bold : Bool
  italics : Bool
  underline : Bool
  size : Option Nat
deriving DecidableEq

/-- One docx `Paragraph`: its run children and the `pageBreakBefore` flag
(ExportButtons line 87). -/
structure Paragraph where
  children : List TextRun
  pageBreakBefore : Bool
deriving DecidableEq

mutual

/-- DOM `textContent` of a node: concatenation of all descendant text. -/
def textContent : HNode → String
  | HNode.text s => s
  | HNode.elem _ _ cs => textContentList cs

/-- DOM `textContent` over a child list. -/
def textContentList : List HNode → String
  | [] => ""
  | n :: ns => textContent n ++ textContentList ns

end

/-- The run built by `processTextNode` for one child of a `<p>` element
(ExportButtons lines 105-127): a text node becomes a plain run of its text;
an element becomes a run of its `textContent` with bold/italics/underline
flags from the element's own tag only. -/
def processTextNode : HNode → TextRun
  | HNode.text s => ⟨s, false, false, false, none⟩
  | HNode.elem tag _ cs =>
    ⟨textContentList cs,
     tag = "STRONG" ∨ tag = "B",
     tag = "EM" ∨ tag = "I",
     tag = "U",
     none⟩

/-- The bold heading paragraph emitted for an H1/H2/H3 element
(ExportButtons lines 91-102). -/
def headingParagraph (cs : List HNode) (sz : Nat) : Paragraph :=
  ⟨[⟨textContentList cs, true, false, false, some sz⟩], false⟩

mutual

/-- The structured-export tree walk `processNode` (ExportButtons lines
72-138), returning the paragraphs pushed for one node: a text node yields a
plain paragraph when its trimmed content is non-empty; an `HR` with
`data-page-break="true"` yields one empty page-break paragraph; H1/H2/H3
yield one bold paragraph of size 32/28/24 half-points; a `P` maps each child
to a run and yields one paragraph when there is at least one run; any other
element recurses into its children. -/
def processNode : HNode → List Paragraph
  | HNode.text s =>
    if jsTrim s = "" then [] else [⟨[⟨s, false, false, false, none⟩], false⟩]
  | HNode.elem tag pb cs =>
    if tag = "HR" ∧ pb = true then [⟨[], true⟩]
    else if tag = "H1" then [headingParagraph cs 32]
    else if tag = "H2" then [headingParagraph cs 28]
    else if tag = "H3" then [headingParagraph cs 24]
    else if tag = "P" then
      let runs := cs.map processTextNode
      if runs.length > 0 then [⟨runs, false⟩] else []
    else processNodeList cs

/-- `Array.from(node.childNodes).forEach(processNode)` — the walk over a
child list, concatenating the pushed paragraphs in order. -/
def processNodeList : List HNode → List Paragraph
  | [] => []
  | n :: ns => processNode n ++ processNodeList ns

end

/-- The placeholder paragraph emitted for an empty walk (ExportButtons
lines 145-149). -/
def emptyDocParagraph : Paragraph :=
  ⟨[⟨"Empty document", false, false, false, none⟩], false⟩

/-- The structured (Word) export `exportToWord` (ExportButtons lines
61-151): walk the parsed body children; if the walk produced no paragraph,
emit the single `Empty document` placeholder paragraph. -/
def exportToWord (body : List HNode) : List Paragraph :=
  let paragraphs := processNodeList body
  if paragraphs.length > 0 then paragraphs else [emptyDocParagraph]

mutual

/-- Number of text nodes with non-empty trimmed content in a node. -/
def countNonEmptyText : HNode → Nat
  | HNode.text s => if jsTrim s = "" then 0 else 1
  | HNode.elem _ _ cs => countNonEmptyTextList cs

/-- Number of text nodes with non-empty trimmed content in a child list. -/
def countNonEmptyTextList : List HNode → Nat
  | [] => 0
  | n :: ns => countNonEmptyText n + countNonEmptyTextList ns

end

/-- A document consisting of a single page-break marker and nothing else. -/
def pageBreakOnlyDoc : List HNode := [HNode.elem "HR" true []]

/-- C4 (counterexample): the claim adds "in particular any document with
zero non-empty text nodes" — but a document consisting of one page-break
marker has zero non-empty text nodes, yet its walk produces the page-break
paragraph, so the export emits that paragraph and not the `Empty document`
placeholder. -/
theorem C4_counterexample :
    countNonEmptyTextList pageBreakOnlyDoc = 0
    ∧ exportToWord pageBreakOnlyDoc ≠ [emptyDocParagraph] := by
  have hwalk : processNodeList pageBreakOnlyDoc = [⟨[], true⟩] := by
    simp [pageBreakOnlyDoc, processNodeList, processNode]
  constructor
  · simp [pageBreakOnlyDoc, countNonEmptyTextList, countNonEmptyText]
  · simp [exportToWord, hwalk, emptyDocParagraph]

/-- C4 (amended): for every document whose structured-export tree walk
produces zero paragraphs, the export emits exactly one paragraph containing
the literal text `Empty document`.  (Zero non-empty text nodes does not
imply a zero-paragraph walk: page-break markers, headings and non-empty
`<p>` elements contribute paragraphs with no non-empty text node.) -/
theorem C4_empty_walk_placeholder (body : List HNode)
    (h : processNodeList body = []) :
    exportToWord body = [emptyDocParagraph] := by
  simp [exportToWord, h]

/-- C4 (witness): the amended theorem at the empty document. -/
theorem C4_empty_walk_placeholder_witness :
    exportToWord [] = [emptyDocParagraph] :=
  C4_empty_walk_placeholder [] (by simp [processNodeList])

/-- C5: every heading element of level 1, 2 or 3 encountered by the
structured-export walk yields exactly one bold paragraph whose single run
carries the heading's text content and font size 32, 28 or 24 half-point
units for H1, H2, H3 respectively — whatever its attributes and children. -/
theorem C5_heading_paragraphs (pb : Bool) (cs : List HNode) :
    processNode (HNode.elem "H1" pb cs)
      = [⟨[⟨textContentList cs, true, false, false, some 32⟩], false⟩]
    ∧ processNode (HNode.elem "H2" pb cs)
      = [⟨[⟨textContentList cs, true, false, false, some 28⟩], false⟩]
    ∧ processNode (HNode.elem "H3" pb cs)
      = [⟨[⟨textContentList cs, true, false, false, some 24⟩], false⟩] := by
  refine ⟨?_, ?_, ?_⟩ <;> simp [processNode, headingParagraph]

/-- C10: in the structured-export walk, a `<p>` element with zero child
nodes contributes no paragraph, one with at least one child contributes
exactly one paragraph holding one run per child, and each run's text is the
child's text content, verbatim and untrimmed. -/
theorem C10_paragraph_runs (pb : Bool) (cs : List HNode) :
    processNode (HNode.elem "P" pb cs)
      = (if cs.length > 0 then [⟨cs.map processTextNode, false⟩] else [])
    ∧ (cs.map processTextNode).map TextRun.text = cs.map textContent := by
  constructor
  · simp [processNode]
  · rw [List.map_map]
    apply List.map_congr_left
    intro n _
    cases n with
    | text s => simp [processTextNode, textContent]
    | elem tag pb cs => simp [processTextNode, textContent]

/-- The built-in placeholder tokens, `defaultPlaceholders`
(DocumentEditor lines 34-49), in their fixed canonical order. -/
def defaultPlaceholders : List String :=
  ["\x7b\x7bname\x7d\x7d",
   "\x7b\x7bphone number\x7d\x7d",
   "\x7b\x7bAddress\x7d\x7d",
   "\x7b\x7bemail\x7d\x7d",
   "\x7b\x7bcompany\x7d\x7d",
   "\x7b\x7bdate\x7d\x7d",
   "\x7b\x7bposition\x7d\x7d",
   "\x7b\x7bsalary\x7d\x7d",
   "\x7b\x7bfirst name\x7d\x7d",
   "\x7b\x7blast name\x7d\x7d",
   "\x7b\x7bcity\x7d\x7d",
   "\x7b\x7bstate\x7d\x7d",
   "\x7b\x7bzip code\x7d\x7d",
   "\x7b\x7bcountry\x7d\x7d"]

/-- JS `String.prototype.startsWith`. -/
def strStarts (s pre : String) : Bool := pre.data.isPrefixOf s.data

/-- JS `String.prototype.endsWith`. -/
def strEnds (s suf : String) : Bool := suf.data.isSuffixOf s.data

/-- The opening double brace of a placeholder token. -/
def openBraces : String := "\x7b\x7b"

/-- The closing double brace of a placeholder token. -/
def closeBraces : String := "\x7d\x7d"

/-- Normalization of an input label into its token form
(`addCustomPlaceholder`, DocumentEditor lines 96-100): keep the input if it
is already double-brace wrapped, otherwise trim it and wrap it. -/
def formatPlaceholder (input : String) : String :=
  if strStarts input openBraces && strEnds input closeBraces then input
  else openBraces ++ jsTrim input ++ closeBraces

/-- The two durably stored key-value records (browser `localStorage`): the
JSON-decoded `customPlaceholders` and `removedDefaultPlaceholders` string
lists (DocumentEditor lines 67-73, 116, 146, 155-158). -/
structure Storage where
  customs : List String
  removedDefaults : List String
deriving DecidableEq

/-- The placeholder-registry component state: the text of the custom
placeholder input field, the visible placeholder list (`allPlaceholders`
React state) and the persisted storage. -/
structure EditorState where
  input : String
  allPlaceholders : List String
  storage : Storage
deriving DecidableEq


/-- `addCustomPlaceholder` (DocumentEditor lines 93-120) as a state
transition, also returning whether the duplicate alert was shown: an input
that trims to empty is ignored; a normalized token already present in the
visible list (JS `includes`) is rejected with the alert and no state change;
otherwise the token is prepended to the visible list, the non-default
entries are written back to the `customPlaceholders` record, and the input
is cleared. -/
def addCustomPlaceholder (st : EditorState) : EditorState × Bool :=
  if jsTrim st.input = "" then (st, false)
  else
    let formatted := formatPlaceholder st.input
    if formatted ∈ st.allPlaceholders then (st, true)
    else
      let newPlaceholders := formatted :: st.allPlaceholders
      let customOnly :=
        newPlaceholders.filter (fun p => decide (p ∉ defaultPlaceholders))
      ({ input := "",
         allPlaceholders := newPlaceholders,
         storage := { st.storage with customs := customOnly } }, false)

/-- `deletePlaceholder` (DocumentEditor lines 135-161) as a state
transition: the token is filtered out of the visible list, the non-default
remainder is written back to the `customPlaceholders` record, and a deleted
built-in token is appended (once) to the `removedDefaultPlaceholders`
record. -/
def deletePlaceholder (tok : String) (st : EditorState) : EditorState :=
  let newPlaceholders := st.allPlaceholders.filter (fun p => decide (p ≠ tok))
  let customOnly :=
    newPlaceholders.filter (fun p => decide (p ∉ defaultPlaceholders))
  let newRemoved :=
    if tok ∈ defaultPlaceholders then
      if tok ∈ st.storage.removedDefaults then st.storage.removedDefaults
      else st.storage.removedDefaults ++ [tok]
    else st.storage.removedDefaults
  { st with allPlaceholders := newPlaceholders,
            storage := ⟨customOnly, newRemoved⟩ }

/-- The `allPlaceholders` initializer (DocumentEditor lines 65-80), run on
every registry initialization (component mount / simulated reload): the
stored customs first, then the built-ins not recorded as removed. -/
def initAllPlaceholders (s : Storage) : List String :=
  s.customs
    ++ defaultPlaceholders.filter (fun p => decide (p ∉ s.removedDefaults))

/-- C6: an input label whose normalized token form already exists in the
visible placeholder list is rejected with the user-visible alert and causes
no state change at all — in particular the visible list and the persisted
custom-placeholder storage are exactly as before the call. -/
theorem C6_duplicate_add_rejected (st : EditorState)
    (hne : jsTrim st.input ≠ "")
    (hdup : formatPlaceholder st.input ∈ st.allPlaceholders) :
    addCustomPlaceholder st = (st, true) := by
  unfold addCustomPlaceholder
  rw [if_neg hne, if_pos hdup]

/-- A registry state whose input field holds a label duplicating a visible
placeholder. -/
def dupInputState : EditorState :=
  ⟨"name", defaultPlaceholders, ⟨[], []⟩⟩

/-- C6 (witness): the rejection theorem at a concrete duplicate input. -/
theorem C6_duplicate_add_rejected_witness :
    addCustomPlaceholder dupInputState = (dupInputState, true) :=
  C6_duplicate_add_rejected dupInputState (by decide) (by decide)

theorem deletePlaceholder_removedDefaults (tok : String) (st : EditorState) :
    (deletePlaceholder tok st).storage.removedDefaults
      = if tok ∈ defaultPlaceholders then
          if tok ∈ st.storage.removedDefaults then st.storage.removedDefaults
          else st.storage.removedDefaults ++ [tok]
        else st.storage.removedDefaults := rfl

theorem deletePlaceholder_customs (tok : String) (st : EditorState) :
    (deletePlaceholder tok st).storage.customs
      = (st.allPlaceholders.filter (fun p => decide (p ≠ tok))).filter
          (fun p => decide (p ∉ defaultPlaceholders)) := rfl

/-- C7: deleting a built-in placeholder token records it in the
`removedDefaultPlaceholders` storage; on any later registry initialization
the effective list is the stored customs followed by the built-ins minus the
suppressed set (customs precede built-ins), and the removed built-in token
is absent from that list — it never reappears. -/
theorem C7_remove_builtin_suppressed (st : EditorState) (tok : String)
    (hb : tok ∈ defaultPlaceholders) :
    tok ∈ (deletePlaceholder tok st).storage.removedDefaults
    ∧ initAllPlaceholders (deletePlaceholder tok st).storage
        = (deletePlaceholder tok st).storage.customs
          ++ defaultPlaceholders.filter
              (fun p =>
                decide (p ∉ (deletePlaceholder tok st).storage.removedDefaults))
    ∧ tok ∉ initAllPlaceholders (deletePlaceholder tok st).storage := by
  have hmem : tok ∈ (deletePlaceholder tok st).storage.removedDefaults := by
    rw [deletePlaceholder_removedDefaults, if_pos hb]
    by_cases h2 : tok ∈ st.storage.removedDefaults
    · rwa [if_pos h2]
    · rw [if_neg h2]
      exact List.mem_append.mpr (Or.inr (List.mem_singleton.mpr rfl))
  refine ⟨hmem, rfl, ?_⟩
  intro habs
  unfold initAllPlaceholders at habs
  rcases List.mem_append.mp habs with hcust | hdef
  · rw [deletePlaceholder_customs] at hcust
    rcases List.mem_filter.mp hcust with ⟨_, hflag⟩
    rw [decide_eq_true_eq] at hflag
    exact hflag hb
  · rcases List.mem_filter.mp hdef with ⟨_, hflag⟩
    rw [decide_eq_true_eq] at hflag
    exact hflag hmem

/-- A registry state holding one custom placeholder, for the C7 witness. -/
def builtinDeleteState : EditorState :=
  ⟨"", "\x7b\x7bproject\x7d\x7d" :: defaultPlaceholders,
   ⟨["\x7b\x7bproject\x7d\x7d"], []⟩⟩

/-- C7 (witness): the suppression theorem at the built-in `name` token. -/
theorem C7_remove_builtin_suppressed_witness :
    "\x7b\x7bname\x7d\x7d"
        ∈ (deletePlaceholder "\x7b\x7bname\x7d\x7d"
            builtinDeleteState).storage.removedDefaults
    ∧ initAllPlaceholders
          (deletePlaceholder "\x7b\x7bname\x7d\x7d"
            builtinDeleteState).storage
        = (deletePlaceholder "\x7b\x7bname\x7d\x7d"
            builtinDeleteState).storage.customs
          ++ defaultPlaceholders.filter
              (fun p =>
                decide (p ∉ (deletePlaceholder "\x7b\x7bname\x7d\x7d"
                  builtinDeleteState).storage.removedDefaults))
    ∧ "\x7b\x7bname\x7d\x7d"
        ∉ initAllPlaceholders
            (deletePlaceholder "\x7b\x7bname\x7d\x7d"
              builtinDeleteState).storage :=
  C7_remove_builtin_suppressed builtinDeleteState "\x7b\x7bname\x7d\x7d"
    (by decide)

/-- The session-scoped image blob cache `imageBlobCache` (DocumentEditor
line 61): a map from embedded data-payload identifier (the `data:` URL
string of an SVG `image` node) to its local blob-URL reference.  Local
references are modelled as allocation indices: `URL.createObjectURL` returns
a fresh, never-before-used URL on each call, modelled by the `nextRef`
allocation counter. -/
structure CacheState where
  entries : List (String × Nat)
  nextRef : Nat
deriving DecidableEq

/-- The cache at session start: empty. -/
def initCache : CacheState := ⟨[], 0⟩

/-- Resolution of one payload identifier through the cache
(`handlePdfUpload`, DocumentEditor lines 330-342): a hit returns the stored
local reference unchanged (`imageBlobCache.current.get(href)`); a miss
materializes the payload (`URL.createObjectURL`), stores the new mapping
(`imageBlobCache.current.set(href, blobUrl)`) and returns the fresh
reference. -/
def resolveBlob (href : String) (st : CacheState) : Nat × CacheState :=
  match st.entries.lookup href with
  | some r => (r, st)
  | none =>
    (st.nextRef, ⟨(href, st.nextRef) :: st.entries, st.nextRef + 1⟩)

/-- Cache states arising within one session: the initial empty cache,
closed under resolutions. -/
inductive CacheReachable : CacheState → Prop where
  | init : CacheReachable initCache
  | step (st : CacheState) (href : String) :
      CacheReachable st → CacheReachable (resolveBlob href st).2

/-- Cache well-formedness: every stored reference is below the allocation
counter, and distinct identifiers hold distinct references. -/
def CacheWF (st : CacheState) : Prop :=
  (∀ e ∈ st.entries, e.2 < st.nextRef)
  ∧ (∀ e ∈ st.entries, ∀ e' ∈ st.entries, e.2 = e'.2 → e.1 = e'.1)

theorem lookup_mem_pair {l : List (String × Nat)} {k : String} {v : Nat}
    (h : l.lookup k = some v) : (k, v) ∈ l := by
  induction l with
  | nil => simp [List.lookup] at h
  | cons e es ih =>
    rw [List.lookup] at h
    cases hk : k == e.1 with
    | true =>
      rw [hk] at h
      cases h
      have : k = e.1 := eq_of_beq hk
      rw [this]
      left
    | false =>
      rw [hk] at h
      right
      exact ih h

theorem resolveBlob_hit {st : CacheState} {href : String} {r : Nat}
    (h : st.entries.lookup href = some r) : resolveBlob href st = (r, st) := by
  unfold resolveBlob
  rw [h]

theorem resolveBlob_miss {st : CacheState} {href : String}
    (h : st.entries.lookup href = none) :
    resolveBlob href st
      = (st.nextRef, ⟨(href, st.nextRef) :: st.entries, st.nextRef + 1⟩) := by
  unfold resolveBlob
  rw [h]

theorem cacheWF_resolve (st : CacheState) (href : String)
    (h : CacheWF st) : CacheWF (resolveBlob href st).2 := by
  obtain ⟨hlt, hinj⟩ := h
  cases hl : st.entries.lookup href with
  | some r =>
    rw [resolveBlob_hit hl]
    exact ⟨hlt, hinj⟩
  | none =>
    rw [resolveBlob_miss hl]
    constructor
    · intro e he
      rcases List.mem_cons.mp he with rfl | he'
      · exact Nat.lt_succ_self _
      · exact Nat.lt_succ_of_lt (hlt e he')
    · intro e he e' he' hv
      rcases List.mem_cons.mp he with rfl | he1 <;>
        rcases List.mem_cons.mp he' with h2 | he2
      · rw [h2]
      · exfalso
        have := hlt e' he2
        simp only at hv
        omega
      · exfalso
        have := hlt e he1
        rw [h2] at hv
        simp only at hv
        omega
      · exact hinj e he1 e' he2 hv

theorem cacheReachable_wf {st : CacheState} (h : CacheReachable st) :
    CacheWF st := by
  induction h with
  | init =>
    constructor
    · intro e he; simp [initCache] at he
    · intro e he; simp [initCache] at he
  | step st href _ ih => exact cacheWF_resolve st href ih

theorem lookup_head (k : String) (v : Nat) (es : List (String × Nat)) :
    ((k, v) :: es).lookup k = some v := by
  simp [List.lookup]

theorem lookup_tail {k k' : String} (hne : k ≠ k') (v : Nat)
    (es : List (String × Nat)) :
    ((k', v) :: es).lookup k = es.lookup k := by
  have hb : (k == k') = false := beq_false_of_ne hne
  rw [List.lookup]
  simp only [hb]

/-- C8: within one session, resolving the same payload identifier twice in
sequence returns the identical local reference together with an unchanged
cache (the second call is a pure lookup of the first's result), and
resolving two distinct identifiers in sequence returns distinct local
references. -/
theorem C8_cache_resolve (st : CacheState) (p1 p2 : String)
    (hr : CacheReachable st) :
    resolveBlob p1 (resolveBlob p1 st).2 = resolveBlob p1 st
    ∧ (p1 ≠ p2 →
        (resolveBlob p2 (resolveBlob p1 st).2).1 ≠ (resolveBlob p1 st).1) := by
  obtain ⟨hlt, hinj⟩ := cacheReachable_wf hr
  constructor
  · cases hl : st.entries.lookup p1 with
    | some r =>
      rw [resolveBlob_hit hl, resolveBlob_hit hl]
    | none =>
      rw [resolveBlob_miss hl]
      exact resolveBlob_hit (lookup_head p1 st.nextRef st.entries)
  · intro hne
    cases hl1 : st.entries.lookup p1 with
    | some r1 =>
      rw [resolveBlob_hit hl1]
      cases hl2 : st.entries.lookup p2 with
      | some r2 =>
        rw [resolveBlob_hit hl2]
        intro hv
        have heq : p2 = p1 :=
          hinj (p2, r2) (lookup_mem_pair hl2) (p1, r1) (lookup_mem_pair hl1) hv
        exact hne heq.symm
      | none =>
        rw [resolveBlob_miss hl2]
        have := hlt (p1, r1) (lookup_mem_pair hl1)
        simp only at this ⊢
        omega
    | none =>
      rw [resolveBlob_miss hl1]
      have hl2' : ((p1, st.nextRef) :: st.entries).lookup p2
          = st.entries.lookup p2 :=
        lookup_tail (fun h => hne h.symm) _ _
      cases hl2 : st.entries.lookup p2 with
      | some r2 =>
        rw [resolveBlob_hit (by rw [hl2'] ; exact hl2)]
        have := hlt (p2, r2) (lookup_mem_pair hl2)
        simp only at this ⊢
        omega
      | none =>
        rw [resolveBlob_miss (by rw [hl2'] ; exact hl2)]
        simp only
        omega

/-- C8 (witness): the resolution theorem at the session-initial cache and
two concrete distinct payload identifiers. -/
theorem C8_cache_resolve_witness :
    resolveBlob "data:a" (resolveBlob "data:a" initCache).2
        = resolveBlob "data:a" initCache
    ∧ ("data:a" ≠ "data:b" →
        (resolveBlob "data:b" (resolveBlob "data:a" initCache).2).1
          ≠ (resolveBlob "data:a" initCache).1) :=
  C8_cache_resolve initCache "data:a" "data:b" CacheReachable.init

/-- One entry of the `htmlParts` array built by the PDF import
(`handlePdfUpload`, DocumentEditor lines 299-355): either the container
block of one source page — `<div data-pdf-page="i" style="position:relative;
width:{w}px;height:{h}px;overflow:hidden">{svg}</div>`, carrying the
1-indexed page number, the explicit pixel dimensions of the page's 1.5×
viewport and the processed SVG — or the explicit page-break marker
`<hr class="page-break" data-page-break="true" />`. -/
inductive Block where
  | container (page : Nat) (width height : ℚ) (svg : String)
  | pageBreak
deriving DecidableEq

/-- The page loop of the PDF import (DocumentEditor lines 301-355), with
`fuel` pages remaining starting at page `i`: push the container of page `i`,
then `if (i < pdf.numPages)` push a page-break marker, and continue with
page `i + 1`.  `vp` gives each page's viewport dimensions at scale 1.5 and
`svg` its processed SVG serialization. -/
def importGo (numPages : Nat) (vp : Nat → ℚ × ℚ) (svg : Nat → String) :
    Nat → Nat → List Block
  | _, 0 => []
  | i, fuel + 1 =>
    Block.container i (vp i).1 (vp i).2 (svg i)
      :: (if i < numPages then
            Block.pageBreak :: importGo numPages vp svg (i + 1) fuel
          else importGo numPages vp svg (i + 1) fuel)

/-- The complete `htmlParts` array for an `numPages`-page PDF: the loop runs
for pages `1 .. numPages`. -/
def pdfImportParts (numPages : Nat) (vp : Nat → ℚ × ℚ)
    (svg : Nat → String) : List Block :=
  importGo numPages vp svg 1 numPages

/-- The commit step of the PDF import (DocumentEditor lines 357-364):
`if (htmlParts.length)` the joined content replaces the whole Document in a
single `setContent` call; the result is the committed content, `none` when
nothing was committed. -/
def pdfImportCommit (numPages : Nat) (vp : Nat → ℚ × ℚ)
    (svg : Nat → String) : Option (List Block) :=
  let parts := pdfImportParts numPages vp svg
  if parts.length > 0 then some parts else none

theorem importGo_eq_intersperse (numPages : Nat) (vp : Nat → ℚ × ℚ)
    (svg : Nat → String) :
    ∀ (fuel i : Nat), 1 ≤ i → i + fuel = numPages + 1 →
      importGo numPages vp svg i fuel
        = List.intersperse Block.pageBreak
            ((List.range' i fuel).map
              (fun k => Block.container k (vp k).1 (vp k).2 (svg k))) := by
  intro fuel
  induction fuel with
  | zero => intro i _ _; rfl
  | succ fuel ih =>
    intro i hi hsum
    match fuel, hsum with
    | 0, hsum =>
      have hnot : ¬ i < numPages := by omega
      simp [importGo, hnot, List.range'_one]
    | fuel + 1, hsum =>
      have hlt : i < numPages := by omega
      rw [importGo, if_pos hlt, ih (i + 1) (by omega) (by omega)]
      conv_rhs => rw [List.range'_succ, List.map_cons, List.range'_succ,
        List.map_cons]
      rw [List.intersperse_cons_cons, List.range'_succ, List.map_cons]

/-- C9: for every successfully imported PDF with `numPages ≥ 1` pages, the
content committed to the Document (in one `setContent` replacement) is
exactly the page containers of pages `1 .. numPages` in source order — each
tagged with its 1-indexed page number, its viewport pixel dimensions and its
SVG — interspersed with single page-break markers: exactly one marker
between each pair of consecutive containers and none before the first or
after the last. -/
theorem C9_pdf_import_structure (numPages : Nat) (vp : Nat → ℚ × ℚ)
    (svg : Nat → String) (h : 1 ≤ numPages) :
    pdfImportParts numPages vp svg
      = List.intersperse Block.pageBreak
          ((List.range' 1 numPages).map
            (fun k => Block.container k (vp k).1 (vp k).2 (svg k)))
    ∧ pdfImportCommit numPages vp svg
        = some (pdfImportParts numPages vp svg) := by
  constructor
  · exact importGo_eq_intersperse numPages vp svg numPages 1 (by omega) (by omega)
  · unfold pdfImportCommit pdfImportParts
    match hn : numPages, h with
    | n + 1, _ =>
      rw [importGo]
      simp

/-- Constant viewport dimensions for the C9 witness. -/
def vpTest : Nat → ℚ × ℚ := fun _ => (918, 1188)

/-- Constant page SVG serialization for the C9 witness. -/
def svgTest : Nat → String := fun _ => "<svg></svg>"

/-- C9 (witness): the import-structure theorem at a concrete two-page PDF —
two page containers separated by exactly one page-break marker. -/
theorem C9_pdf_import_structure_witness :
    pdfImportParts 2 vpTest svgTest
      = List.intersperse Block.pageBreak
          ((List.range' 1 2).map
            (fun k => Block.container k (vpTest k).1 (vpTest k).2 (svgTest k)))
    ∧ pdfImportCommit 2 vpTest svgTest
        = some (pdfImportParts 2 vpTest svgTest) :=
  C9_pdf_import_structure 2 vpTest svgTest (by omega)
